import Mathlib

/-!
Shallow embedding of `src/sensat/core.py` (class `SenSat`): tile validation,
product-size parsing, search filtering, download and decompression loops, and
the per-tile orchestration, together with theorems settling the claims about
them.  Character-level string operations (`split`, `replace`, `rstrip`,
slicing, substring tests) are implemented directly on `List Char` so that all
definitions evaluate inside the kernel; Python float arithmetic is modelled by
exact rational arithmetic (every numeric literal appearing in the code and in
the claims is exactly representable).
-/

namespace SenSat

/-- Python `s.split(sep)` for a one-character separator: splits on every
occurrence, keeping empty pieces (`"a  b".split(' ') == ['a','','b']`,
`"".split(' ') == ['']`). -/
def splitChar (sep : Char) : List Char → List (List Char)
  | [] => [[]]
  | c :: rest =>
    let r := splitChar sep rest
    if c == sep then [] :: r
    else
      match r with
      | [] => [[c]]
      | h :: t => (c :: h) :: t

/-- Python `pat in s` (substring containment). -/
def containsSub (pat : List Char) : List Char → Bool
  | [] => pat.isEmpty
  | c :: rest => pat.isPrefixOf (c :: rest) || containsSub pat rest

/-- Python `s[-n:]`: the last `n` characters (the whole string when it is
shorter than `n`). -/
def takeRightL (n : Nat) (l : List Char) : List Char := l.drop (l.length - n)

/-- Python `s[:-n]`: all but the last `n` characters (empty when the string
has at most `n` characters). -/
def dropRightL (n : Nat) (l : List Char) : List Char := l.take (l.length - n)

/-- Python `s.rstrip('/')`: remove every trailing `'/'`. -/
def rstripSlash (s : String) : String :=
  String.mk ((s.data.reverse.dropWhile (fun c => c == '/')).reverse)

/-- Fuel-driven core of Python `s.replace(pat, rep)` for a nonempty pattern:
replaces every non-overlapping occurrence, scanning left to right.  The fuel
is the length of the remaining input, which bounds the recursion depth. -/
def replaceFuel (pat rep : List Char) : Nat → List Char → List Char
  | 0, l => l
  | _ + 1, [] => []
  | fuel + 1, c :: rest =>
    if pat.isPrefixOf (c :: rest) ∧ pat ≠ [] then
      rep ++ replaceFuel pat rep fuel (List.drop pat.length (c :: rest))
    else c :: replaceFuel pat rep fuel rest

/-- Python `s.replace(pat, rep)` for the nonempty patterns used by the code
(`".zip"`, `".SAFE"`). -/
def pyReplace (s pat rep : String) : String :=
  String.mk (replaceFuel pat.data rep.data s.data.length s.data)

/-- Python `s.split('/')[-1]`: the final path component. -/
def lastComponent (p : String) : String :=
  String.mk ((splitChar '/' p.data).getLastD [])

/-- Predicate `tile5 a b c d e`: two ASCII digits followed by three ASCII uppercase
letters, the character classes of the regex `[0-9]{2}[A-Z]{3}`. -/
def tile5 (a b c d e : Char) : Bool :=
  a.isDigit && b.isDigit && c.isUpper && d.isUpper && e.isUpper

/-- The spec's wording for the tile format: the string consists of exactly two
digits followed by three uppercase letters, and nothing else.  Stated for the
refinement comparison with `validateTileL` below. -/
def specTileFormatL : List Char → Bool
  | [a, b, c, d, e] => tile5 a b c d e
  | _ => false

/-- Model of `_validateTile`, i.e. `bool(re.match("[0-9]{2}[A-Z]{3}$", tile))`.
`re.match` anchors the pattern at the start of the string, and Python's `$`
matches at the end of the string or just before a newline at the end of the
string (re module documentation), so the regex also accepts the five-character
tile followed by one trailing `'\n'`. -/
def validateTileL : List Char → Bool
  | [a, b, c, d, e] => tile5 a b c d e
  | [a, b, c, d, e, f] => tile5 a b c d e && f == '\n'
  | _ => false

/-- Spec-side tile format on `String`. -/
def specTileFormat (s : String) : Bool := specTileFormatL s.data

/-- Model of `_validateTile` on `String`. -/
def validateTile (s : String) : Bool := validateTileL s.data

/-- Numeric value of a digit string (most significant digit first). -/
def digitsToNat (cs : List Char) : Nat :=
  cs.foldl (fun a c => a * 10 + (c.toNat - 48)) 0

/-- Every character is an ASCII digit. -/
def allDigits (cs : List Char) : Bool := cs.all Char.isDigit

/-- Python `float(tok)` on an unsigned plain decimal literal (`digits`,
`digits.digits`, `digits.` or `.digits`).  Other accepted forms of Python
float literal (exponents, `inf`/`nan`, underscores, surrounding whitespace)
are outside the fragment exercised by the provider's size strings and yield
`none`, as does every malformed token (`ValueError`).  The value is exact
rational arithmetic; every literal appearing in the code and the claims is
exactly representable. -/
def parseDecCore (cs : List Char) : Option ℚ :=
  match splitChar '.' cs with
  | [ip] =>
    if ip ≠ [] ∧ allDigits ip then some (mkRat (digitsToNat ip) 1) else none
  | [ip, fp] =>
    if (ip ≠ [] ∨ fp ≠ []) ∧ allDigits ip ∧ allDigits fp then
      some (mkRat (digitsToNat ip * 10 ^ fp.length + digitsToNat fp) (10 ^ fp.length))
    else none
  | _ => none

/-- Python `float(tok)` including an optional sign. -/
def parsePyFloat : List Char → Option ℚ
  | '-' :: rest => (parseDecCore rest).map (fun q => -q)
  | '+' :: rest => parseDecCore rest
  | cs => parseDecCore cs

/-- Python `int(x)` on a float value: truncation toward zero. -/
def pyTrunc (q : ℚ) : Int :=
  if q.num < 0 then -((q.num.natAbs / q.den : Nat) : Int)
  else ((q.num.natAbs / q.den : Nat) : Int)

/-- The multiplier table of `_get_filesize` applied to one truncated size
`sz`: `this_size * 0.001` for `kb`/`kib`, `this_size * 1.` for `mb`/`mib`,
`this_size * 1000.` for `gb`/`gib`, and `this_size * 0.000001` for any other
suffix.  The products are written as exact fractions (`mkRat sz 1000` is
`sz * (1/1000)` and so on, see `c2_size_multipliers`) so that the kernel can
evaluate them on concrete inputs. -/
def sizeTimesMult (sz : Int) (suffix : List Char) : ℚ :=
  if suffix = "kb".data ∨ suffix = "kib".data then mkRat sz 1000
  else if suffix = "mb".data ∨ suffix = "mib".data then mkRat sz 1
  else if suffix = "gb".data ∨ suffix = "gib".data then mkRat (sz * 1000) 1
  else mkRat sz 1000000

/-- One element of `_get_filesize`: the truncated numeric value
`int(float(str(i).split(' ')[0]))`, the lower-cased suffix
`str(i).split(' ')[1].lower()` when a second token exists and `'mb'`
otherwise, combined through the multiplier table.  `none` models the
`ValueError` that `float` raises on a malformed leading token. -/
def getFilesizeOne (s : String) : Option ℚ :=
  match splitChar ' ' s.data with
  | [] => none
  | numTok :: rest =>
    match parsePyFloat numTok with
    | none => none
    | some q =>
      let suffix : List Char :=
        match rest with
        | sufTok :: _ => sufTok.map Char.toLower
        | [] => "mb".data
      some (sizeTimesMult (pyTrunc q) suffix)

/-- One product record as consumed by the filter and download steps: the
`properties.title` and `properties.services.download.size` fields of the
flattened provider record. -/
structure Product where
  title : String
  sizeString : String
  deriving DecidableEq, Repr

/-- Grounds of the assertion-style validation failures in `_search`
(`AssertionError` in the code; the spec calls them `ValidationError`). -/
inductive ValidationKind
  | notConnected
  | badTile
  | badLevel
  deriving DecidableEq, Repr

/-- Failure modes of `_search`: one of the three validation `assert`s, or a
`ValueError` (from `_format_query_date` on an unsupported date string, or
from `float` inside `_get_filesize`). -/
inductive SearchError
  | validation : ValidationKind → SearchError
  | valueError
  deriving DecidableEq, Repr

/-- Model of `_get_filesize` over the whole result collection, pairing each record with
its computed size in MB; `none` models the `ValueError` raised at the first
unparseable size string. -/
def getSizes : List Product → Option (List (Product × ℚ))
  | [] => some []
  | p :: rest =>
    match getFilesizeOne p.sizeString, getSizes rest with
    | some q, some tl => some ((p, q) :: tl)
    | _, _ => none

/-- Model of `_search`: the three `assert`s (connected session, tile format, level),
then date formatting (abstracted by `datesOk`; `_format_query_date` raises
`ValueError` on unsupported date strings), then the provider query — whose
result collection is the parameter `queryResult`, the remote call being
external — the empty-result early return, the size computation, and the
`products_df['filesize_mb'] >= float(minsize)` filter. -/
def search (connected : Bool) (tile level : String) (datesOk : Bool)
    (queryResult : List Product) (minsize : ℚ) : Except SearchError (List Product) :=
  if connected = false then .error (.validation .notConnected)
  else if validateTile tile = false then .error (.validation .badTile)
  else if level = "1C" ∨ level = "2A" then
    if datesOk = false then .error .valueError
    else if queryResult.isEmpty then .ok []
    else
      match getSizes queryResult with
      | none => .error .valueError
      | some ps => .ok ((ps.filter (fun pq => minsize ≤ pq.2)).map Prod.fst)
  else .error (.validation .badLevel)

/-- State threaded through `_download`'s product loop: the existing filesystem
paths, the number of `download_feature` invocations made so far (each one a
remote call), and the accumulated `downloaded_files` return list. -/
structure DlState where
  fs : List String
  calls : Nat
  ret : List String
  deriving DecidableEq, Repr

/-- The already-downloaded check path
`'%s/%s' % (output_dir, filename[:-5] + '.zip')`. -/
def zipCheckPath (dir title : String) : String :=
  dir ++ "/" ++ String.mk (dropRightL 5 title.data) ++ ".zip"

/-- The already-extracted check path `'%s/%s' % (output_dir, filename)`. -/
def safeCheckPath (dir title : String) : String := dir ++ "/" ++ title

/-- The path appended to `downloaded_files`:
`('%s/%s' % (output_dir.rstrip('/'), filename)).replace('.SAFE', '.zip')`. -/
def retPath (dir title : String) : String :=
  pyReplace (rstripSlash dir ++ "/" ++ title) ".SAFE" ".zip"

/-- Modelled from the spec: the external `cdsetool.download.download_feature`
call (out of scope for this repository) "writes a compressed archive file
named after the product title with archive extension" into the output
directory — the product title with its `.SAFE` suffix replaced by `.zip`,
which is the path `_download`'s own skip check tests for. -/
def downloadWritePath (dir title : String) : String := zipCheckPath dir title

/-- One iteration of `_download`'s product loop: skip when the archive
already exists (still appending its path to the return list), skip silently
when the extracted form exists, otherwise invoke `download_feature` (counted
in `calls`; `ok p` says whether the external call succeeds — on failure the
bare `except: continue` swallows the error and records nothing). -/
def downloadStep (ok : Product → Bool) (dir : String) (st : DlState) (p : Product) :
    DlState :=
  if st.fs.contains (zipCheckPath dir p.title) then
    { st with ret := st.ret ++ [retPath dir p.title] }
  else if st.fs.contains (safeCheckPath dir p.title) then st
  else if ok p then
    { fs := st.fs ++ [downloadWritePath dir p.title], calls := st.calls + 1,
      ret := st.ret ++ [retPath dir p.title] }
  else { st with calls := st.calls + 1 }

/-- Failure modes of `_download`: the output-directory `assert`, and the bare
`raise` on an empty product collection (a `RuntimeError` at run time, since
no exception is active). -/
inductive DlError
  | outputDirMissing
  | emptyProducts
  deriving DecidableEq, Repr

/-- Model of `_download`: asserts the output directory exists, treats an empty product
collection as fatal, and otherwise folds the download loop over the products
starting from the current filesystem `fs0`. -/
def download (ok : Product → Bool) (dir : String) (dirExists : Bool)
    (fs0 : List String) (products : List Product) : Except DlError DlState :=
  if dirExists = false then .error .outputDirMissing
  else if products.isEmpty then .error .emptyProducts
  else .ok (products.foldl (downloadStep ok dir) ⟨fs0, 0, []⟩)

/-- Failure modes of `_decompress`: the `.zip`-extension `assert`, the two
`assert`s inside `_removeZip` (`AssertionError`), and `os.remove` on a
missing file (`FileNotFoundError`).  Any of them aborts the whole run. -/
inductive DecompError
  | badExtension (f : String)
  | removeAssert (f : String)
  | fileNotFound (f : String)
  deriving DecidableEq, Repr

/-- State threaded through `_decompress`'s loop: the existing filesystem
paths, the archives actually extracted, and the corrupt-archive warnings
printed. -/
structure DecompState where
  fs : List String
  extracted : List String
  warnings : List String
  deriving DecidableEq, Repr

/-- Python `'_MSIL1C_' in zip_file`. -/
def containsMSIL1C (f : String) : Bool := containsSub "_MSIL1C_".data f.data

/-- Python `zip_file.split('/')[-1][-4:] == '.zip'`. -/
def basenameEndsZip (f : String) : Bool :=
  takeRightL 4 (lastComponent f).data == ".zip".data

/-- Model of `_removeZip`: asserts the file name marks a level-1C product and that its
basename ends in `.zip` (`AssertionError` otherwise), then `os.remove`s it
(`FileNotFoundError` when the file does not exist). -/
def removeZip (fs : List String) (f : String) : Except DecompError (List String) :=
  if containsMSIL1C f = false then .error (.removeAssert f)
  else if basenameEndsZip f = false then .error (.removeAssert f)
  else if fs.contains f then .ok (fs.erase f)
  else .error (.fileNotFound f)

/-- The extraction target
`'%s/%s' % (output_dir, zip_file.split('/')[-1].replace('.zip', '.SAFE'))`
whose existence makes `_decompress` skip an archive.  Modelled from the spec:
`extractall` on a product archive creates exactly this `<title>.SAFE` entry
in the output directory (filesystem layout
`<output_dir>/<tile>/<product_title>.SAFE/`). -/
def safeTarget (dir zf : String) : String :=
  dir ++ "/" ++ pyReplace (lastComponent zf) ".zip" ".SAFE"

/-- One iteration of `_decompress`'s loop: skip when the extracted form
exists; otherwise, if `zipfile.is_zipfile` accepts the archive (`isZip`; it
returns false also for a missing file, because it swallows `OSError`),
extract it into the output directory; if not, warn and delete the bad
archive via `_removeZip`.  In both non-skip branches, when `remove` is set
`_removeZip` is invoked afterwards — note that this happens even when the
corrupt branch has already deleted the file. -/
def decompressStep (isZip : String → Bool) (dir : String) (remove : Bool)
    (st : DecompState) (zf : String) : Except DecompError DecompState :=
  if st.fs.contains (safeTarget dir zf) then .ok st
  else if st.fs.contains zf && isZip zf then
    let st1 : DecompState :=
      { st with fs := st.fs ++ [safeTarget dir zf], extracted := st.extracted ++ [zf] }
    if remove then (removeZip st1.fs zf).map (fun fs2 => { st1 with fs := fs2 })
    else .ok st1
  else
    match removeZip st.fs zf with
    | .error e => .error e
    | .ok fs1 =>
      let st1 : DecompState := { st with fs := fs1, warnings := st.warnings ++ [zf] }
      if remove then (removeZip st1.fs zf).map (fun fs2 => { st1 with fs := fs2 })
      else .ok st1

/-- Model of `_decompress`: first the `assert zip_file[-4:] == '.zip'` loop over all
inputs (`AssertionError` at the first offender), then the per-archive loop,
which any uncaught exception aborts. -/
def decompressList (isZip : String → Bool) (dir : String) (remove : Bool)
    (fs0 : List String) (zips : List String) : Except DecompError DecompState :=
  match zips.find? (fun zf => !(takeRightL 4 zf.data == ".zip".data)) with
  | some zf => .error (.badExtension zf)
  | none => zips.foldlM (decompressStep isZip dir remove) ⟨fs0, [], []⟩

/-- Events of the per-tile loop in `SenSat.__init__`, in program order:
directory creation, the `_download` invocation with its product collection,
and the `_decompress` invocation with the returned archive list. -/
inductive Event
  | mkdirCall (path : String)
  | downloadCall (products : List Product)
  | decompressCall (zips : List String)
  deriving DecidableEq, Repr

/-- One iteration of the orchestrator's tile loop: when the filtered search
result is empty the tile is skipped (`continue`) before any directory
creation, download or decompression; otherwise the tile directory
`'%s/%s' % (output_dir, tile)` is created if missing, `_download` is called
on the products, and `_decompress` on the archive list it returned
(abstracted as `zips`). -/
def tileStep (outputDir tile : String) (dirExists : Bool) (products : List Product)
    (zips : List String) : List Event :=
  if products.length = 0 then []
  else
    (if dirExists then [] else [.mkdirCall (outputDir ++ "/" ++ tile)])
      ++ [.downloadCall products, .decompressCall zips]

/-- The orchestrator's loop over tiles, with the per-tile filtered search
results, tile-directory existence, and download returns abstracted as
functions of the tile. -/
def runTiles (outputDir : String) (searchRes : String → List Product)
    (dirExists : String → Bool) (zipsOf : String → List String) :
    List String → List Event
  | [] => []
  | tile :: rest =>
    tileStep outputDir tile (dirExists tile) (searchRes tile) (zipsOf tile)
      ++ runTiles outputDir searchRes dirExists zipsOf rest

theorem specTileFormatL_eq_false {cs : List Char} (h : cs.length ≠ 5) :
    specTileFormatL cs = false := by
  rcases cs with _ | ⟨a, _ | ⟨b, _ | ⟨c, _ | ⟨d, _ | ⟨e, _ | ⟨f, rest⟩⟩⟩⟩⟩⟩ <;>
    simp [specTileFormatL] at h ⊢

/-- C3 (counterexample): the tile validator accepts `"36KWA\n"`, a string that
is not exactly two digits followed by three uppercase letters, because
Python's `$` also matches just before a trailing newline.  This refutes the
claimed equivalence with the exact `##XXX` format. -/
theorem c3_counterexample :
    validateTile "36KWA\n" = true ∧ specTileFormat "36KWA\n" = false := by
  constructor <;> rfl

/-- C3 (amended): the tile validator returns true iff the string is exactly
two digits followed by three uppercase letters, or such a string followed by a
single trailing newline; in particular `validateTile "36KWA"` is true while
`validateTile "3KWA"` and `validateTile "36kwa"` are false.  It is a pure
function (a Lean function of the input string alone). -/
theorem c3_validateTile_amended :
    (∀ cs : List Char,
      validateTileL cs =
        (specTileFormatL cs ||
          (specTileFormatL cs.dropLast && (cs.getLastD 'x' == '\n'))))
    ∧ validateTile "36KWA" = true
    ∧ validateTile "3KWA" = false
    ∧ validateTile "36kwa" = false := by
  refine ⟨?_, rfl, rfl, rfl⟩
  intro cs
  rcases cs with _ | ⟨a, _ | ⟨b, _ | ⟨c, _ | ⟨d, _ | ⟨e, _ | ⟨f, _ | ⟨g, rest⟩⟩⟩⟩⟩⟩⟩
  · rfl
  · rfl
  · rfl
  · rfl
  · rfl
  · simp [validateTileL, specTileFormatL]
  · simp [validateTileL, specTileFormatL]
  · have h6 : specTileFormatL (a :: b :: c :: d :: e :: f :: g :: rest) = false := by
      apply specTileFormatL_eq_false
      simp
    have h5 : specTileFormatL (a :: b :: c :: d :: e :: f :: (g :: rest).dropLast) = false := by
      apply specTileFormatL_eq_false
      simp
    simp [validateTileL, h6, h5]

/-- C2: the size-in-MB computation applies the multiplier 0.001 for KB/KiB, 1
for MB/MiB, 1000 for GB/GiB, and the byte fallback 0.000001 for any
unrecognized suffix, to the truncated numeric part of the size string; in
particular "512 KB" yields 0.512 MB, "2 GB" yields 2000 MB, "10 MB" yields
10 MB, and "5 XB" yields 5e-6 MB. -/
theorem c2_size_multipliers :
    (∀ (s : String) (numTok sufTok : List Char) (rest : List (List Char)) (q : ℚ),
      splitChar ' ' s.data = numTok :: sufTok :: rest →
      parsePyFloat numTok = some q →
      getFilesizeOne s = some (sizeTimesMult (pyTrunc q) (sufTok.map Char.toLower)))
    ∧ (∀ sz : Int,
        sizeTimesMult sz "kb".data = (sz : ℚ) * (1 / 1000)
        ∧ sizeTimesMult sz "kib".data = (sz : ℚ) * (1 / 1000)
        ∧ sizeTimesMult sz "mb".data = (sz : ℚ) * 1
        ∧ sizeTimesMult sz "mib".data = (sz : ℚ) * 1
        ∧ sizeTimesMult sz "gb".data = (sz : ℚ) * 1000
        ∧ sizeTimesMult sz "gib".data = (sz : ℚ) * 1000)
    ∧ (∀ (sz : Int) (suffix : List Char),
        suffix ∉ ["kb".data, "kib".data, "mb".data, "mib".data, "gb".data, "gib".data] →
        sizeTimesMult sz suffix = (sz : ℚ) * (1 / 1000000))
    ∧ getFilesizeOne "512 KB" = some ((512 : ℚ) / 1000)
    ∧ getFilesizeOne "2 GB" = some 2000
    ∧ getFilesizeOne "10 MB" = some 10
    ∧ getFilesizeOne "5 XB" = some ((5 : ℚ) / 1000000) := by
  refine ⟨?_, ?_, ?_, ?_, ?_, ?_, ?_⟩
  · intro s numTok sufTok rest q h1 h2
    simp [getFilesizeOne, h1, h2]
  · intro sz
    refine ⟨?_, ?_, ?_, ?_, ?_, ?_⟩ <;>
      simp [sizeTimesMult, Rat.mkRat_eq_div] <;> ring
  · intro sz suffix h
    simp only [List.mem_cons, List.not_mem_nil, or_false, not_or] at h
    obtain ⟨h1, h2, h3, h4, h5, h6⟩ := h
    simp [sizeTimesMult, h1, h2, h3, h4, h5, h6, Rat.mkRat_eq_div]
    ring
  · have h : getFilesizeOne "512 KB" = some (mkRat 512 1000) := by decide
    rw [h, Rat.mkRat_eq_div]
    norm_num
  · have h : getFilesizeOne "2 GB" = some (mkRat 2000 1) := by decide
    rw [h, Rat.mkRat_eq_div]
    norm_num
  · have h : getFilesizeOne "10 MB" = some (mkRat 10 1) := by decide
    rw [h, Rat.mkRat_eq_div]
    norm_num
  · have h : getFilesizeOne "5 XB" = some (mkRat 5 1000000) := by decide
    rw [h, Rat.mkRat_eq_div]
    norm_num

/-- C2 witness: the universal part of `c2_size_multipliers` evaluated on the
concrete size string "512 KB". -/
theorem c2_witness :
    getFilesizeOne "512 KB" =
      some (sizeTimesMult (pyTrunc (mkRat 512 1)) ("KB".data.map Char.toLower)) :=
  c2_size_multipliers.1 "512 KB" "512".data "KB".data [] (mkRat 512 1)
    (by decide) (by decide)

/-- C9: the numeric portion of a size string is truncated toward zero to an
integer before the unit multiplier is applied — "2.5 GB" evaluates to 2000 MB,
not 2500 MB — and a size string with no whitespace-separated suffix is treated
as if its unit were MB (multiplier 1). -/
theorem c9_truncation :
    (∀ (s : String) (numTok : List Char) (q : ℚ),
      splitChar ' ' s.data = [numTok] →
      parsePyFloat numTok = some q →
      getFilesizeOne s = some (sizeTimesMult (pyTrunc q) "mb".data))
    ∧ (∀ sz : Int, sizeTimesMult sz "mb".data = (sz : ℚ))
    ∧ (∀ (s : String) (numTok sufTok : List Char) (rest : List (List Char)) (q : ℚ),
        splitChar ' ' s.data = numTok :: sufTok :: rest →
        parsePyFloat numTok = some q →
        getFilesizeOne s = some (sizeTimesMult (pyTrunc q) (sufTok.map Char.toLower)))
    ∧ parsePyFloat "2.5".data = some (mkRat 25 10)
    ∧ pyTrunc (mkRat 25 10) = 2
    ∧ getFilesizeOne "2.5 GB" = some 2000 := by
  refine ⟨?_, ?_, ?_, by decide, by decide, ?_⟩
  · intro s numTok q h1 h2
    simp [getFilesizeOne, h1, h2]
  · intro sz
    simp [sizeTimesMult, Rat.mkRat_eq_div]
  · intro s numTok sufTok rest q h1 h2
    simp [getFilesizeOne, h1, h2]
  · have h : getFilesizeOne "2.5 GB" = some (mkRat 2000 1) := by decide
    rw [h, Rat.mkRat_eq_div]
    norm_num

/-- C9 witness: the no-suffix part of `c9_truncation` evaluated on the
concrete size string "42". -/
theorem c9_witness :
    getFilesizeOne "42" = some (sizeTimesMult (pyTrunc (mkRat 42 1)) "mb".data) :=
  c9_truncation.1 "42" "42".data (mkRat 42 1) (by decide) (by decide)

theorem getSizes_mem {l : List Product} {ps : List (Product × ℚ)}
    (h : getSizes l = some ps) :
    ∀ pq ∈ ps, getFilesizeOne pq.1.sizeString = some pq.2 := by
  induction l generalizing ps with
  | nil =>
    simp only [getSizes, Option.some.injEq] at h
    subst h
    simp
  | cons p rest ih =>
    cases hq : getFilesizeOne p.sizeString with
    | none => simp [getSizes, hq] at h
    | some q =>
      cases hr : getSizes rest with
      | none => simp [getSizes, hq, hr] at h
      | some tl =>
        simp only [getSizes, hq, hr, Option.some.injEq] at h
        subst h
        intro pq hpq
        rcases List.mem_cons.mp hpq with h1 | h2
        · subst h1
          exact hq
        · exact ih hr pq h2

/-- C1: every product in a successful search result has a computed size with
`minsize ≤ filesize_mb`; records below `minsize` are discarded by the filter
`products_df[products_df['filesize_mb'] >= float(minsize)]`.  In particular,
for products with computed sizes 10, 30 and 50 MB and `minsize = 25`, exactly
the 30 MB and 50 MB records remain, in order. -/
theorem c1_search_filters_minsize :
    (∀ (tile level : String) (datesOk : Bool) (queryResult : List Product)
        (minsize : ℚ) (out : List Product),
      search true tile level datesOk queryResult minsize = .ok out →
      ∀ p ∈ out, ∃ q, getFilesizeOne p.sizeString = some q ∧ minsize ≤ q)
    ∧ search true "36KWA" "1C" true
        [⟨"A.SAFE", "10 MB"⟩, ⟨"B.SAFE", "30 MB"⟩, ⟨"C.SAFE", "50 MB"⟩] 25
        = .ok [⟨"B.SAFE", "30 MB"⟩, ⟨"C.SAFE", "50 MB"⟩] := by
  constructor
  · intro tile level datesOk qr minsize out h p hp
    unfold search at h
    split at h
    · exact absurd h (by simp)
    · split at h
      · exact absurd h (by simp)
      · split at h
        · split at h
          · exact absurd h (by simp)
          · split at h
            · obtain rfl : ([] : List Product) = out := by injection h
              simp at hp
            · split at h
              · exact absurd h (by simp)
              · rename_i ps hsizes
                obtain rfl : (ps.filter (fun pq => minsize ≤ pq.2)).map Prod.fst = out := by
                  injection h
                obtain ⟨pq, hpq, rfl⟩ := List.mem_map.mp hp
                have hf := List.mem_filter.mp hpq
                exact ⟨pq.2, getSizes_mem hsizes pq hf.1, by simpa using hf.2⟩
        · exact absurd h (by simp)
  · rfl

/-- C1 witness: the universal part of `c1_search_filters_minsize` evaluated on
a concrete one-product search. -/
theorem c1_witness :
    ∃ q, getFilesizeOne "30 MB" = some q ∧ (25 : ℚ) ≤ q :=
  c1_search_filters_minsize.1 "36KWA" "1C" true [⟨"B.SAFE", "30 MB"⟩] 25
    [⟨"B.SAFE", "30 MB"⟩] rfl ⟨"B.SAFE", "30 MB"⟩ (by simp)

/-- C7 (counterexample): with an authenticated session and level "1C", a
search on the tile string "36KWA\n" — which does not match the exact `##XXX`
format — does not fail at all: the trailing-newline quirk of the tile regex
lets it through, refuting "fails with ValidationError when the tile string
does not match the ##XXX format". -/
theorem c7_counterexample :
    specTileFormat "36KWA\n" = false ∧
    search true "36KWA\n" "1C" true [] 25 = .ok [] := ⟨rfl, rfl⟩

/-- C7 (amended): the searcher fails with a validation error exactly when the
session is not connected, the tile fails the validator (`##XXX`, optionally
followed by a single trailing newline — see C3), or the level is neither "1C"
nor "2A"; on every other ground it returns a result or a `ValueError`, never a
validation failure. -/
theorem c7_validation_amended :
    ∀ (connected : Bool) (tile level : String) (datesOk : Bool)
      (queryResult : List Product) (minsize : ℚ),
      (∃ k, search connected tile level datesOk queryResult minsize
        = .error (.validation k))
      ↔ (connected = false ∨ validateTile tile = false
          ∨ (level ≠ "1C" ∧ level ≠ "2A")) := by
  intro connected tile level datesOk qr minsize
  constructor
  · rintro ⟨k, hk⟩
    unfold search at hk
    by_cases hc : connected = false
    · exact Or.inl hc
    · rw [if_neg hc] at hk
      by_cases ht : validateTile tile = false
      · exact Or.inr (Or.inl ht)
      · rw [if_neg ht] at hk
        by_cases hl : level = "1C" ∨ level = "2A"
        · rw [if_pos hl] at hk
          by_cases hd : datesOk = false
          · rw [if_pos hd] at hk
            exact absurd hk (by simp)
          · rw [if_neg hd] at hk
            by_cases he : qr.isEmpty
            · rw [if_pos he] at hk
              exact absurd hk (by simp)
            · rw [if_neg he] at hk
              cases hs : getSizes qr with
              | none => simp [hs] at hk
              | some ps => simp [hs] at hk
        · exact Or.inr (Or.inr (not_or.mp hl))
  · intro h
    unfold search
    by_cases hc : connected = false
    · exact ⟨.notConnected, by rw [if_pos hc]⟩
    · rcases h with h | ht | hl
      · exact absurd h hc
      · exact ⟨.badTile, by rw [if_neg hc, if_pos ht]⟩
      · by_cases ht : validateTile tile = false
        · exact ⟨.badTile, by rw [if_neg hc, if_pos ht]⟩
        · refine ⟨.badLevel, ?_⟩
          rw [if_neg hc, if_neg ht, if_neg (not_or.mpr ⟨hl.1, hl.2⟩)]

theorem contains_of_mem {l : List String} {x : String} (h : x ∈ l) :
    l.contains x = true :=
  List.elem_eq_true_of_mem h

theorem mem_of_contains {l : List String} {x : String} (h : l.contains x = true) :
    x ∈ l :=
  List.mem_of_elem_eq_true h

theorem contains_append_left {l1 l2 : List String} {x : String}
    (h : l1.contains x = true) : (l1 ++ l2).contains x = true :=
  contains_of_mem (List.mem_append_left _ (mem_of_contains h))

theorem contains_append_self (l : List String) (x : String) :
    (l ++ [x]).contains x = true :=
  contains_of_mem (List.mem_append_right _ (List.mem_singleton_self x))

/-- C8: calling the downloader with an existing output directory and an empty
product collection raises (the bare `raise` of the empty-collection branch)
instead of returning an empty result. -/
theorem c8_empty_raises :
    ∀ (ok : Product → Bool) (dir : String) (fs0 : List String),
      download ok dir true fs0 [] = .error .emptyProducts := by
  intro ok dir fs0
  rfl

theorem downloadStep_fs_mono (ok : Product → Bool) (dir : String) (st : DlState)
    (p : Product) (x : String) (hx : st.fs.contains x = true) :
    (downloadStep ok dir st p).fs.contains x = true := by
  unfold downloadStep
  split
  · exact hx
  · split
    · exact hx
    · split
      · exact contains_append_left hx
      · exact hx

theorem download_fold_fs_mono (ok : Product → Bool) (dir : String)
    (ps : List Product) (st : DlState) (x : String) (hx : st.fs.contains x = true) :
    (ps.foldl (downloadStep ok dir) st).fs.contains x = true := by
  induction ps generalizing st with
  | nil => exact hx
  | cons p rest ih => exact ih _ (downloadStep_fs_mono ok dir st p x hx)

theorem downloadStep_establishes (ok : Product → Bool) (dir : String)
    (st : DlState) (p : Product) (hok : ok p = true) :
    (downloadStep ok dir st p).fs.contains (zipCheckPath dir p.title) = true
    ∨ (downloadStep ok dir st p).fs.contains (safeCheckPath dir p.title) = true := by
  unfold downloadStep
  by_cases hzip : st.fs.contains (zipCheckPath dir p.title) = true
  · rw [if_pos hzip]
    exact Or.inl hzip
  · rw [if_neg hzip]
    by_cases hsafe : st.fs.contains (safeCheckPath dir p.title) = true
    · rw [if_pos hsafe]
      exact Or.inr hsafe
    · rw [if_neg hsafe, if_pos hok]
      exact Or.inl (contains_append_self _ _)

theorem download_fold_establishes (ok : Product → Bool) (dir : String)
    (ps : List Product) (st : DlState) (hok : ∀ p ∈ ps, ok p = true) :
    ∀ p ∈ ps,
      (ps.foldl (downloadStep ok dir) st).fs.contains (zipCheckPath dir p.title) = true
      ∨ (ps.foldl (downloadStep ok dir) st).fs.contains (safeCheckPath dir p.title) = true := by
  induction ps generalizing st with
  | nil => simp
  | cons p rest ih =>
    intro p2 hp2
    rcases List.mem_cons.mp hp2 with rfl | h2
    · rcases downloadStep_establishes ok dir st p2 (hok p2 (by simp)) with h | h
      · exact Or.inl (download_fold_fs_mono ok dir rest _ _ h)
      · exact Or.inr (download_fold_fs_mono ok dir rest _ _ h)
    · exact ih _ (fun p3 h3 => hok p3 (List.mem_cons_of_mem _ h3)) p2 h2

theorem download_fold_skips (ok : Product → Bool) (dir : String)
    (ps : List Product) (st : DlState)
    (h : ∀ p ∈ ps, st.fs.contains (zipCheckPath dir p.title) = true
        ∨ st.fs.contains (safeCheckPath dir p.title) = true) :
    (ps.foldl (downloadStep ok dir) st).fs = st.fs
    ∧ (ps.foldl (downloadStep ok dir) st).calls = st.calls := by
  induction ps generalizing st with
  | nil => exact ⟨rfl, rfl⟩
  | cons p rest ih =>
    have hstep : (downloadStep ok dir st p).fs = st.fs
        ∧ (downloadStep ok dir st p).calls = st.calls := by
      unfold downloadStep
      rcases h p (by simp) with hzip | hsafe
      · rw [if_pos hzip]
        exact ⟨rfl, rfl⟩
      · by_cases hzip : st.fs.contains (zipCheckPath dir p.title) = true
        · rw [if_pos hzip]
          exact ⟨rfl, rfl⟩
        · rw [if_neg hzip, if_pos hsafe]
          exact ⟨rfl, rfl⟩
    have hrest := ih (downloadStep ok dir st p)
      (fun p2 hp2 => by rw [hstep.1]; exact h p2 (List.mem_cons_of_mem _ hp2))
    exact ⟨hrest.1.trans hstep.1, hrest.2.trans hstep.2⟩

/-- C4 (counterexample): a corrupt level-2A archive (name without
`'_MSIL1C_'`) present on disk makes the decompressor run abort with the
`AssertionError` of `_removeZip` — the bad archive is not deleted and the
remaining archives are never processed — refuting "whether the product is
level 1C or 2A ... is deleted ... and the run continues". -/
theorem c4_counterexample :
    decompressList (fun _ => false) "out" false
        ["S2A_MSIL2A_X.zip"] ["S2A_MSIL2A_X.zip"]
      = .error (.removeAssert "S2A_MSIL2A_X.zip") := rfl

/-- C4 (amended): for an archive whose name contains `'_MSIL1C_'` and whose
basename ends in `.zip`, present on disk, not yet extracted, and failing the
well-formedness check, a run with the remove flag unset deletes the archive,
records a warning, and continues with the remaining archives; archives
without the level-1C marker (or a set remove flag, which triggers a second
deletion of the now-missing file) instead abort the run. -/
theorem c4_corrupt_removal_amended :
    ∀ (isZip : String → Bool) (dir : String) (st : DecompState) (zf : String)
      (rest : List String),
      containsMSIL1C zf = true →
      basenameEndsZip zf = true →
      st.fs.contains zf = true →
      st.fs.contains (safeTarget dir zf) = false →
      isZip zf = false →
      decompressStep isZip dir false st zf
          = .ok ⟨st.fs.erase zf, st.extracted, st.warnings ++ [zf]⟩
      ∧ List.foldlM (decompressStep isZip dir false) st (zf :: rest)
          = List.foldlM (decompressStep isZip dir false)
              ⟨st.fs.erase zf, st.extracted, st.warnings ++ [zf]⟩ rest := by
  intro isZip dir st zf rest h1 h2 h3 h5 h6
  have hrz : removeZip st.fs zf = .ok (st.fs.erase zf) := by
    unfold removeZip
    rw [if_neg (by rw [h1]; decide), if_neg (by rw [h2]; decide), if_pos h3]
  have hstep : decompressStep isZip dir false st zf
      = .ok ⟨st.fs.erase zf, st.extracted, st.warnings ++ [zf]⟩ := by
    unfold decompressStep
    rw [if_neg (by rw [h5]; decide), if_neg (by rw [h6]; simp), hrz]
    rfl
  refine ⟨hstep, ?_⟩
  rw [List.foldlM_cons, hstep]
  rfl

/-- C4 witness: `c4_corrupt_removal_amended` evaluated on a concrete corrupt
level-1C archive. -/
theorem c4_witness :
    decompressStep (fun _ => false) "o" false
        ⟨["A_MSIL1C_B.zip"], [], []⟩ "A_MSIL1C_B.zip"
      = .ok ⟨[], [], ["A_MSIL1C_B.zip"]⟩
    ∧ List.foldlM (decompressStep (fun _ => false) "o" false)
        ⟨["A_MSIL1C_B.zip"], [], []⟩ ["A_MSIL1C_B.zip"]
      = List.foldlM (decompressStep (fun _ => false) "o" false)
        ⟨[], [], ["A_MSIL1C_B.zip"]⟩ [] :=
  c4_corrupt_removal_amended (fun _ => false) "o"
    ⟨["A_MSIL1C_B.zip"], [], []⟩ "A_MSIL1C_B.zip" []
    (by decide) (by decide) (by decide) (by decide) (by decide)

/-- C5 (counterexample): with the remove flag set, an archive that exists, is
well-formed and extracts successfully, but whose name lacks `'_MSIL1C_'` (a
level-2A product), is not deleted after extraction: the `_removeZip` call
aborts the run with an `AssertionError` — refuting "deleted exactly when the
remove flag is set and its extraction succeeded".  The same input with the
remove flag unset shows the extraction itself succeeds. -/
theorem c5_counterexample :
    decompressList (fun _ => true) "o" true
        ["S2A_MSIL2A_X.zip"] ["S2A_MSIL2A_X.zip"]
      = .error (.removeAssert "S2A_MSIL2A_X.zip")
    ∧ decompressList (fun _ => true) "o" false
        ["S2A_MSIL2A_X.zip"] ["S2A_MSIL2A_X.zip"]
      = .ok ⟨["S2A_MSIL2A_X.zip", "o/S2A_MSIL2A_X.SAFE"], ["S2A_MSIL2A_X.zip"], []⟩ :=
  ⟨rfl, rfl⟩

/-- C5 (amended): for an archive on disk whose name contains `'_MSIL1C_'` and
whose basename ends in `.zip`: with the extracted form already present the
step is skipped and nothing is deleted (any remove flag); when extraction
runs and succeeds, the archive is deleted afterwards iff the remove flag is
set; when extraction fails (corrupt archive) with the remove flag set, the
post-extraction deletion is still attempted on the just-deleted file and
aborts the run with `FileNotFoundError`.  For names without the level-1C
marker the deletion attempt itself aborts the run (see the counterexample). -/
theorem c5_remove_amended :
    ∀ (isZip : String → Bool) (dir : String) (st : DecompState) (zf : String),
      containsMSIL1C zf = true →
      basenameEndsZip zf = true →
      st.fs.contains zf = true →
      (st.fs.contains (safeTarget dir zf) = true →
        ∀ remove, decompressStep isZip dir remove st zf = .ok st)
      ∧ (st.fs.contains (safeTarget dir zf) = false → isZip zf = true →
          decompressStep isZip dir true st zf
            = .ok ⟨(st.fs ++ [safeTarget dir zf]).erase zf,
                st.extracted ++ [zf], st.warnings⟩)
      ∧ (st.fs.contains (safeTarget dir zf) = false → isZip zf = true →
          decompressStep isZip dir false st zf
            = .ok ⟨st.fs ++ [safeTarget dir zf], st.extracted ++ [zf], st.warnings⟩)
      ∧ (st.fs.contains (safeTarget dir zf) = false → isZip zf = false →
          st.fs.Nodup →
          decompressStep isZip dir true st zf = .error (.fileNotFound zf)) := by
  intro isZip dir st zf h1 h2 h3
  refine ⟨?_, ?_, ?_, ?_⟩
  · intro hsafe remove
    unfold decompressStep
    rw [if_pos hsafe]
  · intro hsafe hzip
    have hrz : removeZip (st.fs ++ [safeTarget dir zf]) zf
        = .ok ((st.fs ++ [safeTarget dir zf]).erase zf) := by
      unfold removeZip
      rw [if_neg (by rw [h1]; decide), if_neg (by rw [h2]; decide),
        if_pos (contains_append_left h3)]
    unfold decompressStep
    rw [if_neg (by rw [hsafe]; decide), if_pos (by rw [h3, hzip]; rfl), if_pos rfl,
      hrz]
    rfl
  · intro hsafe hzip
    unfold decompressStep
    rw [if_neg (by rw [hsafe]; decide), if_pos (by rw [h3, hzip]; rfl)]
    rfl
  · intro hsafe hzip hnd
    have herase : ¬((st.fs.erase zf).contains zf = true) := fun hc =>
      hnd.not_mem_erase (mem_of_contains hc)
    have hrz1 : removeZip st.fs zf = .ok (st.fs.erase zf) := by
      unfold removeZip
      rw [if_neg (by rw [h1]; decide), if_neg (by rw [h2]; decide), if_pos h3]
    have hrz2 : removeZip (st.fs.erase zf) zf = .error (.fileNotFound zf) := by
      unfold removeZip
      rw [if_neg (by rw [h1]; decide), if_neg (by rw [h2]; decide),
        if_neg herase]
    unfold decompressStep
    rw [if_neg (by rw [hsafe]; decide), if_neg (by rw [hzip]; simp), hrz1]
    show Except.map
        (fun fs2 =>
          ({ fs := fs2, extracted := st.extracted,
             warnings := st.warnings ++ [zf] } : DecompState))
        (removeZip (st.fs.erase zf) zf)
      = .error (.fileNotFound zf)
    rw [hrz2]
    rfl

/-- C5 witness: `c5_remove_amended` evaluated on a concrete level-1C archive
(successful extraction with and without the remove flag). -/
theorem c5_witness :
    ((["A_MSIL1C_B.zip"] : List String).contains
        (safeTarget "o" "A_MSIL1C_B.zip") = true →
      ∀ remove, decompressStep (fun _ => true) "o" remove
        ⟨["A_MSIL1C_B.zip"], [], []⟩ "A_MSIL1C_B.zip" = .ok ⟨["A_MSIL1C_B.zip"], [], []⟩)
    ∧ ((["A_MSIL1C_B.zip"] : List String).contains
        (safeTarget "o" "A_MSIL1C_B.zip") = false → (fun _ => true) "A_MSIL1C_B.zip" = true →
      decompressStep (fun _ => true) "o" true
        ⟨["A_MSIL1C_B.zip"], [], []⟩ "A_MSIL1C_B.zip"
        = .ok ⟨(["A_MSIL1C_B.zip"] ++ [safeTarget "o" "A_MSIL1C_B.zip"]).erase "A_MSIL1C_B.zip",
            [] ++ ["A_MSIL1C_B.zip"], []⟩)
    ∧ ((["A_MSIL1C_B.zip"] : List String).contains
        (safeTarget "o" "A_MSIL1C_B.zip") = false → (fun _ => true) "A_MSIL1C_B.zip" = true →
      decompressStep (fun _ => true) "o" false
        ⟨["A_MSIL1C_B.zip"], [], []⟩ "A_MSIL1C_B.zip"
        = .ok ⟨["A_MSIL1C_B.zip"] ++ [safeTarget "o" "A_MSIL1C_B.zip"],
            [] ++ ["A_MSIL1C_B.zip"], []⟩)
    ∧ ((["A_MSIL1C_B.zip"] : List String).contains
        (safeTarget "o" "A_MSIL1C_B.zip") = false → (fun _ => true) "A_MSIL1C_B.zip" = false →
      (["A_MSIL1C_B.zip"] : List String).Nodup →
      decompressStep (fun _ => true) "o" true
        ⟨["A_MSIL1C_B.zip"], [], []⟩ "A_MSIL1C_B.zip"
        = .error (.fileNotFound "A_MSIL1C_B.zip")) :=
  c5_remove_amended (fun _ => true) "o" ⟨["A_MSIL1C_B.zip"], [], []⟩ "A_MSIL1C_B.zip"
    (by decide) (by decide) (by decide)

theorem decompress_fold_skips (isZip : String → Bool) (dir : String) (remove : Bool)
    (zips : List String) (st : DecompState)
    (h : ∀ zf ∈ zips, st.fs.contains (safeTarget dir zf) = true) :
    List.foldlM (decompressStep isZip dir remove) st zips = .ok st := by
  induction zips with
  | nil => rfl
  | cons zf rest ih =>
    have hstep : decompressStep isZip dir remove st zf = .ok st := by
      unfold decompressStep
      rw [if_pos (h zf (by simp))]
    rw [List.foldlM_cons, hstep]
    exact ih (fun zf2 h2 => h zf2 (List.mem_cons_of_mem _ h2))

/-- C6: (downloader) after a first complete run in which every remote
download succeeds, a second downloader run on the same product list and
destination performs zero `download_feature` calls — every product hits one
of the two skip-if-exists branches; (decompressor) when the extracted
`.SAFE` form of every archive already exists in the destination, a
decompressor run extracts nothing and leaves the state untouched. -/
theorem c6_idempotent :
    (∀ (ok : Product → Bool) (dir : String) (fs0 : List String)
        (ps : List Product) (out1 : DlState),
      (∀ p ∈ ps, ok p = true) →
      download ok dir true fs0 ps = .ok out1 →
      ∃ out2, download ok dir true out1.fs ps = .ok out2 ∧ out2.calls = 0)
    ∧ (∀ (isZip : String → Bool) (dir : String) (remove : Bool)
        (fs0 : List String) (zips : List String),
      (∀ zf ∈ zips, takeRightL 4 zf.data = ".zip".data) →
      (∀ zf ∈ zips, fs0.contains (safeTarget dir zf) = true) →
      decompressList isZip dir remove fs0 zips = .ok ⟨fs0, [], []⟩) := by
  constructor
  · intro ok dir fs0 ps out1 hok h1
    unfold download at h1
    rw [if_neg (by decide)] at h1
    by_cases hemp : ps.isEmpty
    · rw [if_pos hemp] at h1
      exact absurd h1 (by simp)
    · rw [if_neg hemp] at h1
      have hout1 : out1 = ps.foldl (downloadStep ok dir) ⟨fs0, 0, []⟩ := by
        injection h1 with h2
        exact h2.symm
      refine ⟨ps.foldl (downloadStep ok dir) ⟨out1.fs, 0, []⟩, ?_, ?_⟩
      · unfold download
        rw [if_neg (by decide), if_neg hemp]
      · have hest : ∀ p ∈ ps, out1.fs.contains (zipCheckPath dir p.title) = true
            ∨ out1.fs.contains (safeCheckPath dir p.title) = true := by
          rw [hout1]
          exact download_fold_establishes ok dir ps ⟨fs0, 0, []⟩ hok
        exact (download_fold_skips ok dir ps ⟨out1.fs, 0, []⟩ hest).2
  · intro isZip dir remove fs0 zips hext hsafe
    unfold decompressList
    have hfind : zips.find? (fun zf => !(takeRightL 4 zf.data == ".zip".data)) = none :=
      List.find?_eq_none.mpr (fun zf hzf => by rw [hext zf hzf]; simp)
    rw [hfind]
    exact decompress_fold_skips isZip dir remove zips ⟨fs0, [], []⟩ hsafe

/-- C6 witness: both halves of `c6_idempotent` evaluated on concrete runs — a
one-product download rerun from the state its first run produced, and a
decompressor run over an archive whose extracted form exists. -/
theorem c6_witness :
    (∃ out2, download (fun _ => true) "o" true ["o/T.zip"] [⟨"T.SAFE", "30 MB"⟩]
        = .ok out2 ∧ out2.calls = 0)
    ∧ decompressList (fun _ => true) "o" false
        [safeTarget "o" "A_MSIL1C_B.zip"] ["A_MSIL1C_B.zip"]
        = .ok ⟨[safeTarget "o" "A_MSIL1C_B.zip"], [], []⟩ :=
  ⟨c6_idempotent.1 (fun _ => true) "o" [] [⟨"T.SAFE", "30 MB"⟩]
      ⟨["o/T.zip"], 1, ["o/T.zip"]⟩ (by simp) rfl,
   c6_idempotent.2 (fun _ => true) "o" false [safeTarget "o" "A_MSIL1C_B.zip"]
      ["A_MSIL1C_B.zip"] (by decide) (by decide)⟩

/-- C10: a tile whose filtered search result is empty produces no events at
all (no directory creation, no download call, no decompress call), and every
download invocation the orchestrator makes carries a nonempty product
collection — so the downloader's empty-collection fatal branch is
unreachable from the orchestrator. -/
theorem c10_empty_tile_skipped :
    (∀ (outputDir tile : String) (dirExists : Bool) (zips : List String),
      tileStep outputDir tile dirExists [] zips = [])
    ∧ (∀ (outputDir : String) (searchRes : String → List Product)
        (dirExists : String → Bool) (zipsOf : String → List String)
        (tiles : List String) (ps : List Product),
      Event.downloadCall ps ∈ runTiles outputDir searchRes dirExists zipsOf tiles →
      ps ≠ []) := by
  constructor
  · intro o t d z
    rfl
  · intro o sr de zo tiles ps hmem
    induction tiles with
    | nil => simp [runTiles] at hmem
    | cons tile rest ih =>
      unfold runTiles at hmem
      rcases List.mem_append.mp hmem with h1 | h2
      · unfold tileStep at h1
        by_cases hlen : (sr tile).length = 0
        · rw [if_pos hlen] at h1
          cases h1
        · rw [if_neg hlen] at h1
          rcases List.mem_append.mp h1 with ha | hb
          · by_cases hd : de tile
            · rw [if_pos hd] at ha
              cases ha
            · rw [if_neg hd] at ha
              simp at ha
          · simp at hb
            intro h0
            apply hlen
            rw [← hb, h0]
            rfl
      · exact ih h2

/-- C10 witness: both parts of `c10_empty_tile_skipped` at concrete inputs —
an empty search result yields no events, and the download call of a
one-product tile is nonempty. -/
theorem c10_witness :
    tileStep "o" "36KWA" true [] [] = []
    ∧ ([⟨"B.SAFE", "30 MB"⟩] : List Product) ≠ [] :=
  ⟨c10_empty_tile_skipped.1 "o" "36KWA" true [],
   c10_empty_tile_skipped.2 "o" (fun _ => [⟨"B.SAFE", "30 MB"⟩]) (fun _ => true)
      (fun _ => []) ["36KWA"] [⟨"B.SAFE", "30 MB"⟩] (by decide)⟩

end SenSat

